import Mathlib

/-!
Verification of the screen-analysis repository's job-execution and
segment-analysis engine.

The definitions below are a shallow embedding of the Python sources
`runner/better_video_analysis_fixed.py` and `runner/runner_service.py`.
External collaborators (ffmpeg, the remote inference service, object
storage, the backlog store, the event loop's wall clock) are modelled
by explicit oracles/environments; pure control flow, string handling,
arithmetic and the retry wrappers are translated directly.
-/

namespace ScreenAnalysis

/-! ### Python string primitives: `str.lower` and the `in` substring test -/

/-- ASCII lowering of one character, as Python `str.lower` acts on the
ASCII range that all keywords of `_categorize_error` live in. -/
def pyLowerChar (c : Char) : Char :=
  if 'A' ≤ c ∧ c ≤ 'Z' then Char.ofNat (c.toNat + 32) else c

/-- Python `s.lower()`. -/
def pyLower (s : String) : String := ⟨s.data.map pyLowerChar⟩

/-- `leadsWith pat l` : `pat` is a leading run (initial fragment) of `l`. -/
def leadsWith : List Char → List Char → Bool
  | [], _ => true
  | _ :: _, [] => false
  | p :: ps, c :: cs => p == c && leadsWith ps cs

/-- `hasRun pat l` : `pat` occurs contiguously somewhere inside `l`. -/
def hasRun (pat : List Char) : List Char → Bool
  | [] => leadsWith pat []
  | c :: cs => leadsWith pat (c :: cs) || hasRun pat cs

/-- Python `pat in s` for strings. -/
def strHas (s pat : String) : Bool := hasRun pat.data s.data

/-! ### Filesystem model

Paths are modelled as their dot-separated components, so Python's
`Path.with_suffix` (replace the text after the final dot) is
`dropLast ++ new components`.  The filesystem is an association list
from paths to the kind of content ffmpeg wrote there: a stream `copied`
slice (`-c copy`) or a re-encoded `compressed` slice (`-c:v libx264`).
File sizes come from a separate oracle since they are produced by the
external encoder. -/

abbrev FsPath := List String

/-- `Path.with_suffix`: drop the final dot-component, append the new ones. -/
def withSuffix (p : FsPath) (suf : List String) : FsPath := p.dropLast ++ suf

inductive SliceKind where
  | copied
  | compressed
deriving DecidableEq, BEq

abbrev FS := List (FsPath × SliceKind)

/-- The `f".seg{start_s}_{end_s}"` component of a slice's file name. -/
def segName (s e : Nat) : String := "seg" ++ toString s ++ "_" ++ toString e

/-- `slice_with_ffmpeg` (better_video_analysis_fixed.py lines 53-82):
the output name is `src.with_suffix(f".seg{start_s}_{end_s}.mp4")`
independently of `compress`; if that file already exists it is returned
as-is without running ffmpeg, otherwise ffmpeg writes a copied or
re-encoded slice there depending on `compress`. -/
def slice_with_ffmpeg (fs : FS) (src : FsPath) (start_s end_s : Nat) (compress : Bool) :
    FS × FsPath :=
  let out := withSuffix src [segName start_s end_s, "mp4"]
  if (fs.lookup out).isSome then (fs, out)
  else ((out, if compress then SliceKind.compressed else SliceKind.copied) :: fs, out)

/-! ### Segments and `VideoAnalyser.split` -/

/-- The `Segment` dataclass (idx, src, start_s, end_s, path). -/
structure Segment where
  idx : Nat
  src : FsPath
  start_s : Nat
  end_s : Nat
  path : FsPath
deriving DecidableEq

/-- `self.segment_len = segment_len * 60` (minutes to seconds). -/
def segmentLenSeconds (minutes : Nat) : Nat := minutes * 60

/-- Python's `range(0, stop, step)` for `step > 0`: the values `k * step`
with `k * step < stop`, i.e. `k < ceil(stop / step)`. -/
def pyRange (stop step : Nat) : List Nat :=
  (List.range ((stop + step - 1) / step)).map (fun k => k * step)

/-- The loop body of `VideoAnalyser.split` (lines 197-202): for each start,
`end = min(start + segment_len, duration_s)`, slice, and append a `Segment`
with 1-based index `i`. -/
def buildSegs (video : FsPath) (L D : Nat) : FS → List Nat → Nat → FS × List Segment
  | fs, [], _ => (fs, [])
  | fs, st :: rest, i =>
    let e := min (st + L) D
    let s := slice_with_ffmpeg fs video st e false
    let r := buildSegs video L D s.1 rest (i + 1)
    (r.1, ⟨i, video, st, e, s.2⟩ :: r.2)

/-- `VideoAnalyser.split` (lines 190-202), with the video duration in whole
seconds (`int(total_frames / fps)`, supplied by the external decoder) as a
parameter. -/
def split (fs : FS) (video : FsPath) (duration_s segment_len : Nat) : FS × List Segment :=
  buildSegs video segment_len duration_s fs (pyRange duration_s segment_len) 1

/-! ### Exceptions and the tenacity retry wrapper -/

/-- A Python exception: its class name and the string `str(e)` yields.
For `tenacity.RetryError` the stored message is the formatted
`RetryError[<Future ...>]` text that `str` produces. -/
structure PyExc where
  cls : String
  msg : String
deriving DecidableEq

/-- `str(e)`. -/
def strOfExc (e : PyExc) : String := e.msg

/-- `str(tenacity.RetryError(last_attempt))`: the class name of the wrapped
exception appears in the future's repr; its memory address `addr` is
runtime-dependent. -/
def retryErrorStr (addr cls : String) : String :=
  "RetryError[<Future at " ++ addr ++ " state=finished raised " ++ cls ++ ">]"

/-- The tenacity `@retry` wrapper: up to `rem` attempts of `runs`; a failure
is re-attempted only when `retryable` accepts it; on exhaustion the final
exception is re-raised as-is when `reraise` is set, and otherwise wrapped in
a `RetryError` (tenacity's default).  Traces of each attempt are
concatenated. -/
def tenacityGo {Ev α : Type} (retryable : PyExc → Bool) (reraise : Bool) (addr : String)
    (runs : Nat → List Ev × Except PyExc α) : Nat → Nat → List Ev × Except PyExc α
  | 0, _ => ([], Except.error ⟨"RetryError", retryErrorStr addr "Exception"⟩)
  | 1, k =>
    match runs k with
    | (tr, Except.ok a) => (tr, Except.ok a)
    | (tr, Except.error e) =>
      if retryable e then
        (tr, Except.error (if reraise then e else ⟨"RetryError", retryErrorStr addr e.cls⟩))
      else (tr, Except.error e)
  | rem + 2, k =>
    match runs k with
    | (tr, Except.ok a) => (tr, Except.ok a)
    | (tr, Except.error e) =>
      if retryable e then
        let next := tenacityGo retryable reraise addr runs (rem + 1) (k + 1)
        (tr ++ next.1, next.2)
      else (tr, Except.error e)

/-! ### `analyse_segment` and its remote-call protocol -/

inductive FileState where
  | active
  | failed
  | processing
deriving DecidableEq

inductive RemoteCall where
  | upload
  | getFile
  | generate
  | delete
deriving DecidableEq, BEq

/-- Oracle for one segment's remote interactions: the outcome of the k-th
`genai.upload_file` attempt, the state `genai.get_file` reports on the k-th
poll, and the outcome of the k-th `generate_content` attempt.  (Exceptions
raised by `get_file` itself and the "not found" swallow at lines 118-123 are
elided; `genai.delete_file`'s outcome is irrelevant because the
`try/except: pass` at lines 171-174 discards it.) -/
structure SegEnv where
  uploadResults : Nat → Except PyExc Unit
  pollStates : Nat → FileState
  genResults : Nat → Except PyExc String

/-- `max_wait=300` seconds polled every `check_interval=2` seconds. -/
def maxPolls : Nat := 300 / 2

/-- `wait_for_file_active` (lines 97-127): poll until ACTIVE, abort on
FAILED, raise after the wait bound is exhausted. -/
def wait_for_file_active (pollStates : Nat → FileState) :
    Nat → Nat → List RemoteCall × Except PyExc Unit
  | 0, _ => ([], Except.error ⟨"Exception", "File did not become active in 300 seconds"⟩)
  | fuel + 1, k =>
    match pollStates k with
    | FileState.active => ([RemoteCall.getFile], Except.ok ())
    | FileState.failed => ([RemoteCall.getFile], Except.error ⟨"Exception", "File upload failed"⟩)
    | FileState.processing =>
      let next := wait_for_file_active pollStates fuel (k + 1)
      (RemoteCall.getFile :: next.1, next.2)

/-- `upload_file` under its tenacity policy (lines 89-95): 5 attempts, any
exception retried, `reraise=True`. -/
def uploadPhase (env : SegEnv) : List RemoteCall × Except PyExc Unit :=
  tenacityGo (fun _ => true) true "" (fun k => ([RemoteCall.upload], env.uploadResults k)) 5 0

/-- The poll step of `analyse_segment` (line 164). -/
def waitPhase (env : SegEnv) : List RemoteCall × Except PyExc Unit :=
  wait_for_file_active env.pollStates maxPolls 0

/-- `generate_content_with_retry` (lines 129-139): 3 attempts, any exception
retried, `reraise=True`. -/
def genPhase (env : SegEnv) : List RemoteCall × Except PyExc String :=
  tenacityGo (fun _ => true) true "" (fun k => ([RemoteCall.generate], env.genResults k)) 3 0

def pad2 (n : Nat) : String := if n < 10 then "0" ++ toString n else toString n

/-- `str(timedelta(seconds=s))` for sub-day durations: `H:MM:SS`. -/
def timedeltaStr (s : Nat) : String :=
  toString (s / 3600) ++ ":" ++ pad2 (s % 3600 / 60) ++ ":" ++ pad2 (s % 60)

/-- The per-segment result dict `{"segment": ..., "range": ..., "analysis": ...}`. -/
structure SegResult where
  segment : Nat
  range : String
  analysis : String
deriving DecidableEq

/-- The size-check/compress step of `analyse_segment` (lines 144-158): when
compression is on and the slice exceeds 100 MB, the slice path is replaced
by `seg.path.with_suffix('.compressed.mp4')` if that file exists, and
otherwise by the result of `slice_with_ffmpeg(seg.src, start, end, True)`. -/
def compressionPhase (sizeMB : FsPath → Nat) (fs : FS) (seg : Segment)
    (compress_large_files : Bool) : FS × Segment :=
  let file_size_mb := sizeMB seg.path
  if compress_large_files ∧ 100 < file_size_mb then
    let compressed_path := withSuffix seg.path ["compressed", "mp4"]
    if (fs.lookup compressed_path).isSome then (fs, { seg with path := compressed_path })
    else
      let s := slice_with_ffmpeg fs seg.src seg.start_s seg.end_s true
      (s.1, { seg with path := s.2 })
  else (fs, seg)

/-- `analyse_segment` (lines 141-180): compress check, upload (retried),
poll until active, then `generate` wrapped in `try/finally` whose `finally`
issues one `delete_file` call (its own failure swallowed).  Note the poll
step sits *outside* that `try`, so a poll failure returns without any
delete call. -/
def analyse_segment (env : SegEnv) (sizeMB : FsPath → Nat) (fs : FS) (seg : Segment)
    (compress_large_files : Bool) : FS × List RemoteCall × Except PyExc SegResult :=
  let c := compressionPhase sizeMB fs seg compress_large_files
  match uploadPhase env with
  | (utr, Except.error e) => (c.1, utr, Except.error e)
  | (utr, Except.ok _) =>
    match waitPhase env with
    | (wtr, Except.error e) => (c.1, utr ++ wtr, Except.error e)
    | (wtr, Except.ok _) =>
      match genPhase env with
      | (gtr, Except.error e) =>
        (c.1, utr ++ wtr ++ gtr ++ [RemoteCall.delete], Except.error e)
      | (gtr, Except.ok content) =>
        (c.1, utr ++ wtr ++ gtr ++ [RemoteCall.delete],
          Except.ok ⟨c.2.idx, timedeltaStr c.2.start_s ++ "–" ++ timedeltaStr c.2.end_s, content⟩)

def countDelete (tr : List RemoteCall) : Nat := tr.count RemoteCall.delete

def exceptOk {α : Type} : Except PyExc α → Bool
  | Except.ok _ => true
  | Except.error _ => false

/-! ### `VideoAnalyser.run` result collection and the `cli` persistence step -/

/-- The result dict `analyse_segment` builds for a segment (line 176-180). -/
def mkSegResult (contents : Nat → String) (seg : Segment) : SegResult :=
  ⟨seg.idx, timedeltaStr seg.start_s ++ "–" ++ timedeltaStr seg.end_s, contents seg.idx⟩

/-- `VideoAnalyser.run` (lines 204-226): results are appended in the order
tasks complete (`asyncio.as_completed`), given here as the list `order` of
positions into the submitted task list. -/
def run_completion_order (fs : FS) (video : FsPath) (duration_s segment_len : Nat)
    (order : List Nat) (contents : Nat → String) : List SegResult :=
  let segs := (split fs video duration_s segment_len).2
  order.filterMap (fun i => (segs[i]?).map (mkSegResult contents))

/-- The segment indices of the artifact `cli` persists (lines 251-256):
`out.write_text(json.dumps(results, indent=2))` writes `results` in the
exact order `run` returned them. -/
def persistedSegmentIndices (fs : FS) (video : FsPath) (duration_s segment_len : Nat)
    (order : List Nat) (contents : Nat → String) : List Nat :=
  (run_completion_order fs video duration_s segment_len order contents).map
    (fun r => r.segment)

/-! ### The bounded-concurrency gate of `VideoAnalyser.run`

`run` wraps every `analyse_segment` call in `async with semaphore` where
`semaphore = asyncio.Semaphore(max_concurrent)`.  The scheduler is modelled
as a transition system over the counts of tasks that have not yet acquired
the semaphore, hold it (in-flight upload-through-generate), or released it,
plus the semaphore's available-permit count. -/

/-- `max_concurrent = 3` (line 208). -/
def max_concurrent : Nat := 3

structure RunState where
  avail : Nat
  running : Nat
  waiting : Nat
  finished : Nat
deriving DecidableEq

/-- At pipeline start all `n` segment tasks wait and all permits are free. -/
def initState (n : Nat) : RunState := ⟨max_concurrent, 0, n, 0⟩

/-- One scheduler step: a waiting task acquires a free permit and becomes
in-flight, or an in-flight task finishes `analyse_segment` and releases its
permit. -/
inductive SemStep : RunState → RunState → Prop
  | acquire (s : RunState) (h1 : 0 < s.avail) (h2 : 0 < s.waiting) :
      SemStep s ⟨s.avail - 1, s.running + 1, s.waiting - 1, s.finished⟩
  | release (s : RunState) (h : 0 < s.running) :
      SemStep s ⟨s.avail + 1, s.running - 1, s.waiting, s.finished + 1⟩

/-- States reachable from `init` by scheduler steps. -/
inductive Reach (init : RunState) : RunState → Prop
  | refl : Reach init init
  | step {s t : RunState} : Reach init s → SemStep s t → Reach init t

/-! ### `runner_service.py`: subprocess invocation, categorization, job events -/

/-- Outcome of one spawned analysis subprocess: it either exceeds the 1-hour
`asyncio.wait_for` ceiling or finishes with a return code and stderr text. -/
inductive SubprocResult where
  | timeout
  | finished (returncode : Int) (stderrText : String)

/-- External behaviour across attempts: the k-th spawn's outcome and whether
a JSON file is present in the output directory after the k-th attempt. -/
structure SubprocBehavior where
  result : Nat → SubprocResult
  jsonProduced : Nat → Bool

inductive ProcEv where
  | spawn
  | kill
  | procWait
deriving DecidableEq, BEq

/-- One attempt of `JobProcessor._run_analysis` (lines 282-349): on timeout
the process is killed and awaited and `asyncio.TimeoutError` is raised; a
non-zero exit raises `RuntimeError` for quota/rate-limit or Gemini-API
stderr and `ValueError` otherwise; a zero exit with no output JSON raises
`ValueError`. -/
def runOnce (b : SubprocBehavior) (k : Nat) : List ProcEv × Except PyExc Unit :=
  match b.result k with
  | SubprocResult.timeout =>
    ([ProcEv.spawn, ProcEv.kill, ProcEv.procWait],
      Except.error ⟨"TimeoutError", "Analysis exceeded 1 hour time limit"⟩)
  | SubprocResult.finished rc stderrText =>
    if rc ≠ 0 then
      let error_msg := pyLower stderrText
      if strHas error_msg "quota" || strHas error_msg "rate limit" then
        ([ProcEv.spawn], Except.error ⟨"RuntimeError", "API quota/rate limit error: " ++ stderrText⟩)
      else if strHas error_msg "gemini" && strHas error_msg "api" then
        ([ProcEv.spawn], Except.error ⟨"RuntimeError", "Gemini API error (retrying): " ++ stderrText⟩)
      else
        ([ProcEv.spawn], Except.error ⟨"ValueError", "Analysis script failed: " ++ stderrText⟩)
    else if b.jsonProduced k then ([ProcEv.spawn], Except.ok ())
    else
      ([ProcEv.spawn],
        Except.error ⟨"ValueError", "Analysis completed but no output JSON was generated"⟩)

/-- `retry_if_exception_type((RuntimeError, asyncio.TimeoutError))` on
`_run_analysis` (line 275). -/
def runRetryable (e : PyExc) : Bool := e.cls == "RuntimeError" || e.cls == "TimeoutError"

/-- `_run_analysis` under its decorator: `stop_after_attempt(2)`, no
`reraise`, so exhaustion raises `RetryError`. -/
def run_analysis (b : SubprocBehavior) (addr : String) : List ProcEv × Except PyExc Unit :=
  tenacityGo runRetryable false addr (runOnce b) 2 0

def countSpawn (tr : List ProcEv) : Nat := tr.count ProcEv.spawn

/-- `JobProcessor._categorize_error` (lines 544-563). -/
def categorize_error (errStr : String) : String :=
  let error_msg := pyLower errStr
  if strHas error_msg "quota" || strHas error_msg "rate limit" then "quota_exceeded"
  else if strHas error_msg "api key" || strHas error_msg "authentication" then "api_key_invalid"
  else if strHas error_msg "storage" || strHas error_msg "bucket" then "storage_error"
  else if strHas error_msg "timeout" then "timeout"
  else if strHas error_msg "network" || strHas error_msg "connection" then "network_error"
  else if strHas error_msg "memory" || strHas error_msg "resource" then "resource_error"
  else if strHas error_msg "ffmpeg" || strHas error_msg "video" then "video_processing_error"
  else "unknown_error"

inductive JobEvent where
  | statusUpdate (status : String) (category : Option String) (jsonUrl pdfUrl : Option String)
  | webhook (status : String)
  | criticalAlert (category : String)
deriving DecidableEq

/-- The categories gating `_send_critical_error_alert` (line 187). -/
def criticalCategories : List String := ["quota_exceeded", "api_key_invalid", "storage_error"]

structure ResultUrls where
  json : Option String
  pdf : Option String
deriving DecidableEq

/-- The observable events of `JobProcessor._process_job` (lines 106-191)
given the combined outcome of download/analysis/upload: the `processing`
update, then either the `completed` update with the artifact URLs, or the
`failed` update with the categorized error followed by a critical alert for
categories in the critical set.  Each status update triggers its webhook
(`_update_job_status` line 485); the backlog update itself is assumed to be
delivered (external store functioning). -/
def process_job (outcome : Except PyExc ResultUrls) : List JobEvent :=
  [JobEvent.statusUpdate "processing" none none none, JobEvent.webhook "processing"] ++
    match outcome with
    | Except.ok urls =>
      [JobEvent.statusUpdate "completed" none urls.json urls.pdf, JobEvent.webhook "completed"]
    | Except.error e =>
      let cat := categorize_error (strOfExc e)
      [JobEvent.statusUpdate "failed" (some cat) none none, JobEvent.webhook "failed"] ++
        (if criticalCategories.contains cat then [JobEvent.criticalAlert cat] else [])

/-- `JobProcessor._generate_pdf_report` (lines 440-469): the outcome of the
import/load/render body is an oracle; any exception is caught and `None`
returned. -/
def generate_pdf_report (pdfGen : Except PyExc Unit) : Option String :=
  match pdfGen with
  | Except.ok _ => some "analysis_report.pdf"
  | Except.error _ => none

/-- Oracles for `_upload_results`: presence of the output JSON file, its
validity, the storage upload outcomes, and the body of PDF generation. -/
structure UploadEnv where
  jsonFilePresent : Bool
  jsonValid : Bool
  jsonUpload : Except PyExc Unit
  pdfGen : Except PyExc Unit
  pdfUpload : Except PyExc Unit

def resultsUrlBase : String := "/storage/v1/object/public/results/"

def jsonUrlStr (user_id job_id : String) : String :=
  resultsUrlBase ++ user_id ++ "/" ++ job_id ++ "/analysis_result.json"

def pdfUrlStr (user_id job_id : String) : String :=
  resultsUrlBase ++ user_id ++ "/" ++ job_id ++ "/analysis_report.pdf"

/-- `JobProcessor._upload_results` (lines 362-434): fail on a missing or
invalid JSON artifact, upload it, then optionally generate and upload the
PDF; a `None` from `_generate_pdf_report` skips the PDF entirely, and an
`IOError` in the PDF read/upload block is swallowed (the URL is still
recorded — the assignment sits after the `try`). -/
def upload_results (env : UploadEnv) (user_id job_id : String) : Except PyExc ResultUrls :=
  if env.jsonFilePresent = false then
    Except.error ⟨"FileNotFoundError", "No JSON output file found"⟩
  else if env.jsonValid = false then
    Except.error ⟨"ValueError", "Invalid JSON in output file"⟩
  else
    match env.jsonUpload with
    | Except.error e => Except.error e
    | Except.ok _ =>
      match generate_pdf_report env.pdfGen with
      | none => Except.ok ⟨some (jsonUrlStr user_id job_id), none⟩
      | some _ =>
        match env.pdfUpload with
        | Except.ok _ =>
          Except.ok ⟨some (jsonUrlStr user_id job_id), some (pdfUrlStr user_id job_id)⟩
        | Except.error e =>
          if e.cls == "IOError" then
            Except.ok ⟨some (jsonUrlStr user_id job_id), some (pdfUrlStr user_id job_id)⟩
          else Except.error e

/-! ### `JobProcessor._get_next_job` and the polling loop -/

structure Job where
  id : String
  user_id : String
deriving DecidableEq

/-- `_get_next_job` (lines 87-104): the claim RPC either raises or returns a
data list; every exception is caught and turned into `None`, and an empty
data list is also `None`. -/
def getNextJob (resp : Except PyExc (List Job)) : Option Job :=
  match resp with
  | Except.error _ => none
  | Except.ok [] => none
  | Except.ok (j :: _) => some j

inductive LoopAction where
  | process (j : Job)
  | sleep
deriving DecidableEq

/-- One iteration of `JobProcessor.run` (lines 71-85): process a claimed job
or sleep for the poll interval. -/
def runLoopStep (resp : Except PyExc (List Job)) : LoopAction :=
  match getNextJob resp with
  | some j => LoopAction.process j
  | none => LoopAction.sleep

/-! ### Concrete inputs used by witnesses and counterexamples -/

/-- The characters CPython's `%x`-style address formatting can emit inside
a `repr(Future)`. -/
def hexChars : List Char :=
  (List.range 10).map (fun n => Char.ofNat ('0'.toNat + n)) ++
    (List.range 6).map (fun n => Char.ofNat ('a'.toNat + n)) ++ ['x']

def vid : FsPath := ["video", "mp4"]

/-- A remote environment whose uploaded file never becomes active. -/
def envPollStuck : SegEnv :=
  { uploadResults := fun _ => Except.ok ()
    pollStates := fun _ => FileState.processing
    genResults := fun _ => Except.ok "x" }

/-- The first segment `split` produces for a 25-minute video at 10-minute
segment length. -/
def segOne : Segment := ⟨1, vid, 0, 600, ["video", "seg0_600", "mp4"]⟩

def size150 : FsPath → Nat := fun _ => 150

def sizeSmall : FsPath → Nat := fun _ => 10

/-- A subprocess that exceeds the wall-clock ceiling on every attempt. -/
def allTimeout : SubprocBehavior := ⟨fun _ => SubprocResult.timeout, fun _ => true⟩

/-- A subprocess that times out once and then succeeds. -/
def bTimeoutOnce : SubprocBehavior :=
  ⟨fun k => if k = 0 then SubprocResult.timeout else SubprocResult.finished 0 "", fun _ => true⟩

def contentsA : Nat → String := fun _ => "a"

/-- A subprocess whose first attempt fails validation (non-zero exit, stderr
mentioning neither quota/rate-limit nor the Gemini API). -/
def bValErr : SubprocBehavior :=
  ⟨fun _ => SubprocResult.finished 1 "boom", fun _ => true⟩

/-- An upload environment whose PDF-generation body raises. -/
def envPdfFail : UploadEnv :=
  ⟨true, true, Except.ok (), Except.error ⟨"Exception", "pdf render boom"⟩, Except.ok ()⟩

/-! ## Helper lemmas: substring machinery -/

theorem leadsWith_iff (pat : List Char) : ∀ l, leadsWith pat l = true ↔ ∃ t, l = pat ++ t := by
  induction pat with
  | nil => intro l; simp [leadsWith]
  | cons p ps ih =>
    intro l
    cases l with
    | nil => simp [leadsWith]
    | cons c cs =>
      simp only [leadsWith, Bool.and_eq_true, beq_iff_eq, ih]
      constructor
      · rintro ⟨rfl, t, rfl⟩
        exact ⟨t, rfl⟩
      · rintro ⟨t, ht⟩
        injection ht with h1 h2
        exact ⟨h1.symm, t, h2⟩

theorem hasRun_iff (pat : List Char) : ∀ l, hasRun pat l = true ↔ ∃ s t, l = s ++ pat ++ t := by
  intro l
  induction l with
  | nil =>
    simp only [hasRun, leadsWith_iff]
    constructor
    · rintro ⟨t, ht⟩
      exact ⟨[], t, by simpa using ht⟩
    · rintro ⟨s, t, h⟩
      have h2 := h.symm
      rw [List.append_assoc, List.append_eq_nil] at h2
      exact ⟨t, by simp [h2.1, h2.2]⟩
  | cons c cs ih =>
    simp only [hasRun, Bool.or_eq_true, leadsWith_iff, ih]
    constructor
    · rintro (⟨t, ht⟩ | ⟨s, t, ht⟩)
      · exact ⟨[], t, by simpa using ht⟩
      · exact ⟨c :: s, t, by simp [ht]⟩
    · rintro ⟨s, t, h⟩
      cases s with
      | nil => exact Or.inl ⟨t, by simpa using h⟩
      | cons a s2 =>
        injection h with h1 h2
        exact Or.inr ⟨s2, t, h2⟩

theorem hasRun_append_right (pat a b : List Char) (h : hasRun pat b = true) :
    hasRun pat (a ++ b) = true := by
  rw [hasRun_iff] at h ⊢
  obtain ⟨s, t, rfl⟩ := h
  exact ⟨a ++ s, t, by simp⟩

theorem hasRun_trans (p q l : List Char) (h1 : hasRun p q = true) (h2 : hasRun q l = true) :
    hasRun p l = true := by
  rw [hasRun_iff] at h1 h2 ⊢
  obtain ⟨s1, t1, rfl⟩ := h1
  obtain ⟨s2, t2, rfl⟩ := h2
  exact ⟨s2 ++ s1, t1 ++ t2, by simp⟩

theorem hasRun_map (f : Char → Char) (pat l : List Char) (h : hasRun pat l = true) :
    hasRun (pat.map f) (l.map f) = true := by
  rw [hasRun_iff] at h ⊢
  obtain ⟨s, t, rfl⟩ := h
  exact ⟨s.map f, t.map f, by simp⟩

theorem hasRun_mem (pat l : List Char) (h : hasRun pat l = true) : ∀ c ∈ pat, c ∈ l := by
  rw [hasRun_iff] at h
  obtain ⟨s, t, rfl⟩ := h
  intro c hc
  simp [hc]

theorem hasRun_eq_false_of_missing (pat l : List Char) (c : Char) (hc : c ∈ pat)
    (hl : c ∉ l) : hasRun pat l = false := by
  cases h : hasRun pat l with
  | false => rfl
  | true => exact absurd (hasRun_mem pat l h c hc) hl

theorem hasRun_head_right : ∀ (a : List Char) {b : List Char} {c : Char} {ps : List Char},
    c ∉ a → hasRun (c :: ps) (a ++ b) = true → hasRun (c :: ps) b = true := by
  intro a
  induction a with
  | nil => intro b c ps _ h; simpa using h
  | cons x a2 ih =>
    intro b c ps hc h
    simp only [List.cons_append, hasRun, Bool.or_eq_true] at h
    rcases h with h | h
    · rw [leadsWith_iff] at h
      obtain ⟨t, ht⟩ := h
      injection ht with h1 _
      exact absurd (by simp [h1]) hc
    · exact ih (fun hm => hc (List.mem_cons_of_mem x hm)) h

theorem map_pyLowerChar_fix (l : List Char) (h : ∀ c ∈ l, c ∈ hexChars) :
    l.map pyLowerChar = l := by
  have hfix : ∀ c ∈ hexChars, pyLowerChar c = c := by decide
  induction l with
  | nil => rfl
  | cons c cs ih =>
    simp only [List.map_cons]
    rw [hfix c (h c (by simp)), ih (fun d hd => h d (List.mem_cons_of_mem c hd))]

/-! ## Helper lemmas: error categorization -/

theorem strHas_pyLower (m pat : String) (hfix : pat.data.map pyLowerChar = pat.data)
    (h : strHas m pat = true) : strHas (pyLower m) pat = true := by
  unfold strHas at h ⊢
  have h2 := hasRun_map pyLowerChar pat.data m.data h
  rw [hfix] at h2
  exact h2

theorem categorize_quota (m : String) (h : strHas m "quota" = true) :
    categorize_error m = "quota_exceeded" := by
  have h2 : strHas (pyLower m) "quota" = true :=
    strHas_pyLower m "quota" (by decide) h
  unfold categorize_error
  simp [h2]

theorem pyLower_retryErrorStr (addr : String) (h : ∀ c ∈ addr.data, c ∈ hexChars) :
    (pyLower (retryErrorStr addr "TimeoutError")).data =
      "retryerror[<future at ".data ++
        (addr.data ++ " state=finished raised timeouterror>]".data) := by
  show (retryErrorStr addr "TimeoutError").data.map pyLowerChar = _
  simp only [retryErrorStr, String.data_append, List.append_assoc, List.map_append]
  rw [map_pyLowerChar_fix addr.data h]
  have e1 : List.map pyLowerChar "RetryError[<Future at ".data = "retryerror[<future at ".data := by
    decide
  have e2 : List.map pyLowerChar " state=finished raised ".data ++
      (List.map pyLowerChar "TimeoutError".data ++ List.map pyLowerChar ">]".data) =
        " state=finished raised timeouterror>]".data := by decide
  rw [e1, e2]

theorem categorize_retryTimeout (addr : String) (h : ∀ c ∈ addr.data, c ∈ hexChars) :
    categorize_error (retryErrorStr addr "TimeoutError") = "timeout" := by
  have hlow := pyLower_retryErrorStr addr h
  have hmem : ∀ c : Char, c ∉ ("retryerror[<future at ".data : List Char) →
      c ∉ hexChars → c ∉ (" state=finished raised timeouterror>]".data : List Char) →
      c ∉ (pyLower (retryErrorStr addr "TimeoutError")).data := by
    intro c h1 h2 h3 hc
    rw [hlow] at hc
    rcases List.mem_append.mp hc with hc | hc
    · exact h1 hc
    rcases List.mem_append.mp hc with hc | hc
    · exact h2 (h c hc)
    · exact h3 hc
  have hq : strHas (pyLower (retryErrorStr addr "TimeoutError")) "quota" = false :=
    hasRun_eq_false_of_missing _ _ 'q' (by decide)
      (hmem 'q' (by decide) (by decide) (by decide))
  have hrl : strHas (pyLower (retryErrorStr addr "TimeoutError")) "rate limit" = false :=
    hasRun_eq_false_of_missing _ _ 'l' (by decide)
      (hmem 'l' (by decide) (by decide) (by decide))
  have hak : strHas (pyLower (retryErrorStr addr "TimeoutError")) "api key" = false :=
    hasRun_eq_false_of_missing _ _ 'k' (by decide)
      (hmem 'k' (by decide) (by decide) (by decide))
  have hst : strHas (pyLower (retryErrorStr addr "TimeoutError")) "storage" = false :=
    hasRun_eq_false_of_missing _ _ 'g' (by decide)
      (hmem 'g' (by decide) (by decide) (by decide))
  have hbk : strHas (pyLower (retryErrorStr addr "TimeoutError")) "bucket" = false :=
    hasRun_eq_false_of_missing _ _ 'k' (by decide)
      (hmem 'k' (by decide) (by decide) (by decide))
  have hau : strHas (pyLower (retryErrorStr addr "TimeoutError")) "authentication" = false := by
    cases hval : strHas (pyLower (retryErrorStr addr "TimeoutError")) "authentication" with
    | false => rfl
    | true =>
      exfalso
      unfold strHas at hval
      have hhen : hasRun "hen".data (pyLower (retryErrorStr addr "TimeoutError")).data = true :=
        hasRun_trans _ _ _ (by decide) hval
      rw [hlow, ← List.append_assoc] at hhen
      have hnh : 'h' ∉ ("retryerror[<future at ".data : List Char) ++ addr.data := by
        intro hc
        rcases List.mem_append.mp hc with hc | hc
        · exact absurd hc (by decide)
        · exact absurd (h 'h' hc) (by decide)
      have : hasRun ('h' :: "en".data) (" state=finished raised timeouterror>]".data) = true := by
        have hh := hasRun_head_right _ hnh (by simpa using hhen)
        simpa using hh
      exact absurd this (by decide)
  have hto : strHas (pyLower (retryErrorStr addr "TimeoutError")) "timeout" = true := by
    unfold strHas
    rw [hlow]
    exact hasRun_append_right _ _ _ (hasRun_append_right _ _ _ (by decide))
  unfold categorize_error
  simp [hq, hrl, hak, hau, hst, hbk, hto]

/-! ## Helper lemmas: `split` -/

theorem slice_path (fs : FS) (src : FsPath) (s e : Nat) (c : Bool) :
    (slice_with_ffmpeg fs src s e c).2 = withSuffix src [segName s e, "mp4"] := by
  unfold slice_with_ffmpeg
  by_cases hl : ((fs.lookup (withSuffix src [segName s e, "mp4"])).isSome : Bool) <;> simp [hl]

theorem buildSegs_length (v : FsPath) (L D : Nat) :
    ∀ (starts : List Nat) (fs : FS) (i : Nat),
      ((buildSegs v L D fs starts i).2).length = starts.length := by
  intro starts
  induction starts with
  | nil => intro fs i; rfl
  | cons st rest ih => intro fs i; simp [buildSegs, ih]

theorem buildSegs_get (v : FsPath) (L D : Nat) :
    ∀ (starts : List Nat) (fs : FS) (i k : Nat) (hk : k < starts.length),
      ((buildSegs v L D fs starts i).2)[k]? =
        some ⟨i + k, v, starts[k], min (starts[k] + L) D,
          withSuffix v [segName starts[k] (min (starts[k] + L) D), "mp4"]⟩ := by
  intro starts
  induction starts with
  | nil => intro fs i k hk; exact absurd hk (by simp)
  | cons st rest ih =>
    intro fs i k hk
    cases k with
    | zero =>
      simp only [buildSegs, List.getElem?_cons_zero, List.getElem_cons_zero, Nat.add_zero]
      rw [slice_path]
    | succ k2 =>
      have hk2 : k2 < rest.length := by simpa using hk
      simp only [buildSegs, List.getElem?_cons_succ, List.getElem_cons_succ]
      rw [ih _ (i + 1) k2 hk2]
      have e : i + 1 + k2 = i + (k2 + 1) := by omega
      rw [e]

theorem split_length (fs : FS) (v : FsPath) (D L : Nat) :
    ((split fs v D L).2).length = (D + L - 1) / L := by
  simp [split, buildSegs_length, pyRange]

theorem split_get (fs : FS) (v : FsPath) (D L k : Nat)
    (hk : k < ((split fs v D L).2).length) :
    ((split fs v D L).2)[k]? =
      some ⟨k + 1, v, k * L, min (k * L + L) D,
        withSuffix v [segName (k * L) (min (k * L + L) D), "mp4"]⟩ := by
  have hk2 : k < (pyRange D L).length := by
    rw [split_length] at hk
    simpa [pyRange] using hk
  have hval := buildSegs_get v L D (pyRange D L) fs 1 k hk2
  have hpr : (pyRange D L)[k] = k * L := by
    simp [pyRange]
  rw [hpr] at hval
  have e : 1 + k = k + 1 := by omega
  rw [e] at hval
  exact hval

theorem split_getElem (fs : FS) (v : FsPath) (D L k : Nat)
    (hk : k < ((split fs v D L).2).length) :
    ((split fs v D L).2)[k] =
      ⟨k + 1, v, k * L, min (k * L + L) D,
        withSuffix v [segName (k * L) (min (k * L + L) D), "mp4"]⟩ := by
  have h1 := List.getElem?_eq_getElem hk
  rw [split_get fs v D L k hk] at h1
  exact (Option.some_injective _ h1).symm

theorem mul_lt_of_lt_ceil (D L k : Nat) (hL : 0 < L) (hk : k < (D + L - 1) / L) :
    k * L < D := by
  have h1 : k + 1 ≤ (D + L - 1) / L := hk
  have h2 : (k + 1) * L ≤ D + L - 1 := (Nat.le_div_iff_mul_le hL).mp h1
  have h3 : (k + 1) * L = k * L + L := by ring
  omega

theorem le_ceil_mul (D L : Nat) (hL : 0 < L) : D ≤ ((D + L - 1) / L) * L := by
  have h1 := Nat.div_add_mod (D + L - 1) L
  have h2 : (D + L - 1) % L < L := Nat.mod_lt _ hL
  have h3 : ((D + L - 1) / L) * L = L * ((D + L - 1) / L) := by ring
  omega

theorem div_lt_ceil (D L t : Nat) (hL : 0 < L) (ht : t < D) :
    t / L < (D + L - 1) / L := by
  have h1 : t / L * L ≤ t := Nat.div_mul_le_self t L
  have h2 : (t / L + 1) * L ≤ D + L - 1 := by
    have : (t / L + 1) * L = t / L * L + L := by ring
    omega
  exact (Nat.le_div_iff_mul_le hL).mpr h2

/-- C1: for every whole-second duration `D ≥ 0` and segment length `L > 0`,
`VideoAnalyser.split` produces `⌈D / L⌉` segments that are 1-indexed in
order, contiguous, non-overlapping, of positive length at most `L` each,
and that cover exactly `[0, D)` (every instant below `D` lies in some
window, every window lies below `D`, and the last window ends at `D`). -/
theorem split_partition_correct (fs : FS) (v : FsPath) (D L : Nat) (hL : 0 < L) :
    ((split fs v D L).2).length = D ⌈/⌉ L ∧
    (∀ k (hk : k < ((split fs v D L).2).length),
      (((split fs v D L).2)[k]).idx = k + 1 ∧
      (((split fs v D L).2)[k]).start_s = k * L ∧
      (((split fs v D L).2)[k]).end_s = min ((k + 1) * L) D ∧
      (((split fs v D L).2)[k]).start_s < (((split fs v D L).2)[k]).end_s ∧
      (((split fs v D L).2)[k]).end_s ≤ D ∧
      (((split fs v D L).2)[k]).end_s - (((split fs v D L).2)[k]).start_s ≤ L) ∧
    (∀ k (hk : k < ((split fs v D L).2).length) (hk1 : k + 1 < ((split fs v D L).2).length),
      (((split fs v D L).2)[k]).end_s = (((split fs v D L).2)[k + 1]).start_s) ∧
    (∀ k1 k2 (h1 : k1 < ((split fs v D L).2).length) (h2 : k2 < ((split fs v D L).2).length),
      k1 < k2 → (((split fs v D L).2)[k1]).end_s ≤ (((split fs v D L).2)[k2]).start_s) ∧
    (∀ t, t < D → ∃ k, ∃ hk : k < ((split fs v D L).2).length,
      (((split fs v D L).2)[k]).start_s ≤ t ∧ t < (((split fs v D L).2)[k]).end_s) ∧
    (∀ h0 : 0 < ((split fs v D L).2).length,
      (((split fs v D L).2).get
        ⟨((split fs v D L).2).length - 1, Nat.sub_lt h0 Nat.one_pos⟩).end_s = D) := by
  have hlen : ((split fs v D L).2).length = (D + L - 1) / L := split_length fs v D L
  refine ⟨by rw [hlen, Nat.ceilDiv_eq_add_pred_div], ?_, ?_, ?_, ?_, ?_⟩
  · intro k hk
    rw [split_getElem fs v D L k hk]
    have hkD : k * L < D := mul_lt_of_lt_ceil D L k hL (by rw [← hlen]; exact hk)
    have hmul : (k + 1) * L = k * L + L := by ring
    refine ⟨rfl, rfl, by rw [hmul], ?_, ?_, ?_⟩ <;> simp only [] <;> omega
  · intro k hk hk1
    rw [split_getElem fs v D L k hk, split_getElem fs v D L (k + 1) hk1]
    have hkD : (k + 1) * L < D :=
      mul_lt_of_lt_ceil D L (k + 1) hL (by rw [← hlen]; exact hk1)
    have hmul : (k + 1) * L = k * L + L := by ring
    simp only []
    omega
  · intro k1 k2 h1 h2 hlt
    rw [split_getElem fs v D L k1 h1, split_getElem fs v D L k2 h2]
    simp only []
    have : (k1 + 1) * L ≤ k2 * L := Nat.mul_le_mul_right L (by omega)
    have hmul : (k1 + 1) * L = k1 * L + L := by ring
    omega
  · intro t ht
    have hq : t / L < ((split fs v D L).2).length := by
      rw [hlen]
      exact div_lt_ceil D L t hL ht
    refine ⟨t / L, hq, ?_⟩
    rw [split_getElem fs v D L (t / L) hq]
    simp only []
    have h1 : t / L * L ≤ t := Nat.div_mul_le_self t L
    have h2 := Nat.div_add_mod t L
    have h3 : t % L < L := Nat.mod_lt _ hL
    have h4 : t / L * L = L * (t / L) := by ring
    omega
  · intro h0
    have hk : ((split fs v D L).2).length - 1 < ((split fs v D L).2).length :=
      Nat.sub_lt h0 Nat.one_pos
    rw [List.get_eq_getElem]
    rw [split_getElem fs v D L (((split fs v D L).2).length - 1) hk]
    simp only []
    have e : ((split fs v D L).2).length - 1 + 1 = ((split fs v D L).2).length := by omega
    have e2 : (((split fs v D L).2).length - 1) * L + L =
        (((split fs v D L).2).length - 1 + 1) * L := by ring
    rw [e2, e, hlen]
    have := le_ceil_mul D L hL
    omega

/-- C1 witness: a 25-minute video at 10-minute segment length yields the
three concrete segments `[0,600)`, `[600,1200)`, `[1200,1500)` (seconds),
and the partition theorem applies at that input. -/
theorem split_partition_correct_witness :
    (split ([] : FS) vid (25 * 60) (segmentLenSeconds 10)).2 =
      [⟨1, vid, 0, 600, ["video", "seg0_600", "mp4"]⟩,
       ⟨2, vid, 600, 1200, ["video", "seg600_1200", "mp4"]⟩,
       ⟨3, vid, 1200, 1500, ["video", "seg1200_1500", "mp4"]⟩] ∧
    0 < segmentLenSeconds 10 ∧
    (((split ([] : FS) vid (25 * 60) (segmentLenSeconds 10)).2).length =
        (25 * 60) ⌈/⌉ segmentLenSeconds 10 ∧
      (∀ k (hk : k < ((split ([] : FS) vid (25 * 60) (segmentLenSeconds 10)).2).length),
        (((split ([] : FS) vid (25 * 60) (segmentLenSeconds 10)).2)[k]).idx = k + 1 ∧
        (((split ([] : FS) vid (25 * 60) (segmentLenSeconds 10)).2)[k]).start_s =
          k * segmentLenSeconds 10 ∧
        (((split ([] : FS) vid (25 * 60) (segmentLenSeconds 10)).2)[k]).end_s =
          min ((k + 1) * segmentLenSeconds 10) (25 * 60) ∧
        (((split ([] : FS) vid (25 * 60) (segmentLenSeconds 10)).2)[k]).start_s <
          (((split ([] : FS) vid (25 * 60) (segmentLenSeconds 10)).2)[k]).end_s ∧
        (((split ([] : FS) vid (25 * 60) (segmentLenSeconds 10)).2)[k]).end_s ≤ 25 * 60 ∧
        (((split ([] : FS) vid (25 * 60) (segmentLenSeconds 10)).2)[k]).end_s -
          (((split ([] : FS) vid (25 * 60) (segmentLenSeconds 10)).2)[k]).start_s ≤
            segmentLenSeconds 10) ∧
      (∀ k (hk : k < ((split ([] : FS) vid (25 * 60) (segmentLenSeconds 10)).2).length)
        (hk1 : k + 1 < ((split ([] : FS) vid (25 * 60) (segmentLenSeconds 10)).2).length),
        (((split ([] : FS) vid (25 * 60) (segmentLenSeconds 10)).2)[k]).end_s =
          (((split ([] : FS) vid (25 * 60) (segmentLenSeconds 10)).2)[k + 1]).start_s) ∧
      (∀ k1 k2 (h1 : k1 < ((split ([] : FS) vid (25 * 60) (segmentLenSeconds 10)).2).length)
        (h2 : k2 < ((split ([] : FS) vid (25 * 60) (segmentLenSeconds 10)).2).length),
        k1 < k2 →
          (((split ([] : FS) vid (25 * 60) (segmentLenSeconds 10)).2)[k1]).end_s ≤
            (((split ([] : FS) vid (25 * 60) (segmentLenSeconds 10)).2)[k2]).start_s) ∧
      (∀ t, t < 25 * 60 →
        ∃ k, ∃ hk : k < ((split ([] : FS) vid (25 * 60) (segmentLenSeconds 10)).2).length,
          (((split ([] : FS) vid (25 * 60) (segmentLenSeconds 10)).2)[k]).start_s ≤ t ∧
            t < (((split ([] : FS) vid (25 * 60) (segmentLenSeconds 10)).2)[k]).end_s) ∧
      (∀ h0 : 0 < ((split ([] : FS) vid (25 * 60) (segmentLenSeconds 10)).2).length,
        (((split ([] : FS) vid (25 * 60) (segmentLenSeconds 10)).2).get
          ⟨((split ([] : FS) vid (25 * 60) (segmentLenSeconds 10)).2).length - 1,
            Nat.sub_lt h0 Nat.one_pos⟩).end_s = 25 * 60)) :=
  ⟨by decide, by decide,
    split_partition_correct ([] : FS) vid (25 * 60) (segmentLenSeconds 10) (by decide)⟩

/-! ## C3: result ordering at persistence -/

/-- C3 counterexample: with a 20-minute video split into 2 segments at
10-minute length, the legitimate completion order "segment 2 first" makes
`cli` persist the result list `[2, 1]` — not sorted by segment index, so
the claim that the persisted artifact is always index-sorted is false. -/
theorem persisted_results_not_sorted_example :
    ([1, 0] : List Nat).Perm (List.range 2) ∧
    persistedSegmentIndices ([] : FS) vid 1200 600 [1, 0] contentsA = [2, 1] ∧
    ¬ List.Sorted (· ≤ ·) (persistedSegmentIndices ([] : FS) vid 1200 600 [1, 0] contentsA) := by
  refine ⟨by decide, by decide, ?_⟩
  have h : persistedSegmentIndices ([] : FS) vid 1200 600 [1, 0] contentsA = [2, 1] := by decide
  rw [h]
  decide

/-- C3 amended: `VideoAnalyser.run` collects results in completion order and
`cli` persists that list unchanged (no re-sort happens anywhere), so the
persisted segment indices are exactly the completion order shifted to
1-based, and the artifact is index-sorted only when the segments happened
to complete in index order. -/
theorem persisted_results_completion_order (fs : FS) (v : FsPath) (D L : Nat)
    (order : List Nat) (contents : Nat → String)
    (h : ∀ i ∈ order, i < ((split fs v D L).2).length) :
    persistedSegmentIndices fs v D L order contents = order.map (fun i => i + 1) ∧
    (List.Sorted (· ≤ ·) (persistedSegmentIndices fs v D L order contents) ↔
      List.Sorted (· ≤ ·) order) := by
  have h1 : ∀ ord : List Nat, (∀ i ∈ ord, i < ((split fs v D L).2).length) →
      persistedSegmentIndices fs v D L ord contents = ord.map (fun i => i + 1) := by
    intro ord
    induction ord with
    | nil => intro _; rfl
    | cons i rest ih =>
      intro hall
      have hi : i < ((split fs v D L).2).length := hall i (by simp)
      have hrest := ih (fun j hj => hall j (List.mem_cons_of_mem i hj))
      have hhead : (((split fs v D L).2)[i]?).map (mkSegResult contents) =
          some (mkSegResult contents
            ⟨i + 1, v, i * L, min (i * L + L) D,
              withSuffix v [segName (i * L) (min (i * L + L) D), "mp4"]⟩) := by
        rw [List.getElem?_eq_getElem hi, split_getElem fs v D L i hi]
        rfl
      unfold persistedSegmentIndices run_completion_order at hrest ⊢
      simp only [List.filterMap_cons, hhead, List.map_cons]
      rw [hrest]
      rfl
  refine ⟨h1 order h, ?_⟩
  have h1o := h1 order h
  rw [h1o]
  unfold List.Sorted
  rw [List.pairwise_map]
  constructor
  · exact fun hp => hp.imp (by omega)
  · exact fun hp => hp.imp (by omega)

/-- C3 witness: the amended theorem applied at a concrete in-order run. -/
theorem persisted_results_completion_order_witness :
    persistedSegmentIndices ([] : FS) vid 1200 600 [0, 1] contentsA =
      ([0, 1] : List Nat).map (fun i => i + 1) ∧
    (List.Sorted (· ≤ ·) (persistedSegmentIndices ([] : FS) vid 1200 600 [0, 1] contentsA) ↔
      List.Sorted (· ≤ ·) ([0, 1] : List Nat)) :=
  persisted_results_completion_order ([] : FS) vid 1200 600 [0, 1] contentsA (by decide)

/-! ## C2: handle cleanup in `analyse_segment` -/

theorem tenacity_trace_count {Ev α : Type} [BEq Ev] (x : Ev) (retryable : PyExc → Bool)
    (reraise : Bool) (addr : String) (runs : Nat → List Ev × Except PyExc α)
    (h : ∀ k, (runs k).1.count x = 0) :
    ∀ rem k0, ((tenacityGo retryable reraise addr runs rem k0).1).count x = 0 := by
  intro rem
  induction rem with
  | zero => intro k0; simp [tenacityGo]
  | succ n ih =>
    intro k0
    rcases hr : runs k0 with ⟨tr, r⟩
    have htr : tr.count x = 0 := by
      have := h k0
      rw [hr] at this
      exact this
    cases n with
    | zero =>
      cases r with
      | ok a => simp [tenacityGo, hr, htr]
      | error e => cases hn : retryable e <;> simp [tenacityGo, hr, hn, htr]
    | succ m =>
      cases r with
      | ok a => simp [tenacityGo, hr, htr]
      | error e =>
        cases hn : retryable e with
        | false => simp [tenacityGo, hr, hn, htr]
        | true =>
          have hnext := ih (k0 + 1)
          simp only [tenacityGo, hr, hn, if_true]
          rw [List.count_append, htr, hnext]

theorem wait_trace_no_delete (ps : Nat → FileState) :
    ∀ fuel k, countDelete (wait_for_file_active ps fuel k).1 = 0 := by
  intro fuel
  induction fuel with
  | zero => intro k; rfl
  | succ n ih =>
    intro k
    cases hp : ps k with
    | active =>
      simp only [wait_for_file_active, hp]
      decide
    | failed =>
      simp only [wait_for_file_active, hp]
      decide
    | processing =>
      simp only [wait_for_file_active, hp, countDelete, List.count_cons]
      have hnext := ih (k + 1)
      simp only [countDelete] at hnext
      rw [hnext]
      decide

theorem uploadPhase_no_delete (env : SegEnv) : countDelete (uploadPhase env).1 = 0 :=
  tenacity_trace_count RemoteCall.delete (fun _ => true) true ""
    (fun k => ([RemoteCall.upload], env.uploadResults k))
    (fun _ => show List.count RemoteCall.delete [RemoteCall.upload] = 0 by decide) 5 0

theorem genPhase_no_delete (env : SegEnv) : countDelete (genPhase env).1 = 0 :=
  tenacity_trace_count RemoteCall.delete (fun _ => true) true ""
    (fun k => ([RemoteCall.generate], env.genResults k))
    (fun _ => show List.count RemoteCall.delete [RemoteCall.generate] = 0 by decide) 3 0

/-- C2 amended: in `analyse_segment` the number of delete calls issued is 1
exactly when the upload phase and the poll-until-active phase both succeed —
then the `try/finally` around `generate` guarantees one delete regardless of
generation's outcome.  When the upload fails, or the poll step raises
(timeout or FAILED state), the delete count is 0: the poll sits outside the
`try/finally`, so the uploaded handle is leaked on that path. -/
theorem analyse_segment_delete_iff_active (env : SegEnv) (sizeMB : FsPath → Nat) (fs : FS)
    (seg : Segment) (clf : Bool) :
    countDelete (analyse_segment env sizeMB fs seg clf).2.1 =
      if exceptOk (uploadPhase env).2 && exceptOk (waitPhase env).2 then 1 else 0 := by
  have hu0 : countDelete (uploadPhase env).1 = 0 := uploadPhase_no_delete env
  have hw0 : countDelete (waitPhase env).1 = 0 := wait_trace_no_delete env.pollStates maxPolls 0
  have hg0 : countDelete (genPhase env).1 = 0 := genPhase_no_delete env
  rcases hu : uploadPhase env with ⟨utr, ur⟩
  rw [hu] at hu0
  cases ur with
  | error e =>
    simp [analyse_segment, hu, exceptOk, hu0]
  | ok u =>
    rcases hw : waitPhase env with ⟨wtr, wr⟩
    rw [hw] at hw0
    cases wr with
    | error e =>
      simp [analyse_segment, hu, hw, exceptOk, countDelete, List.count_append]
      simp only [countDelete] at hu0 hw0
      omega
    | ok w =>
      rcases hg : genPhase env with ⟨gtr, gr⟩
      rw [hg] at hg0
      cases gr with
      | error e =>
        simp only [countDelete] at hu0 hw0 hg0
        simp [analyse_segment, hu, hw, hg, exceptOk, countDelete, List.count_append,
          hu0, hw0, hg0]
        decide
      | ok content =>
        simp only [countDelete] at hu0 hw0 hg0
        simp [analyse_segment, hu, hw, hg, exceptOk, countDelete, List.count_append,
          hu0, hw0, hg0]
        decide

/-- C2 witness: the delete-count equation evaluated at the stuck-poll
environment. -/
theorem analyse_segment_delete_iff_active_witness :
    countDelete (analyse_segment envPollStuck sizeSmall [] segOne true).2.1 =
      if exceptOk (uploadPhase envPollStuck).2 && exceptOk (waitPhase envPollStuck).2
        then 1 else 0 :=
  analyse_segment_delete_iff_active envPollStuck sizeSmall [] segOne true

/-- C2 counterexample: an execution where the upload succeeds but the file
never becomes active within the poll bound — `analyse_segment` fails with
the timeout error and issues zero delete calls, contradicting the claim
that the delete is still attempted on that path. -/
theorem analyse_segment_poll_timeout_no_delete :
    exceptOk (uploadPhase envPollStuck).2 = true ∧
    countDelete (analyse_segment envPollStuck sizeSmall [] segOne true).2.1 = 0 ∧
    (analyse_segment envPollStuck sizeSmall [] segOne true).2.2 =
      Except.error ⟨"Exception", "File did not become active in 300 seconds"⟩ := by
  refine ⟨rfl, ?_, ?_⟩ <;> rfl

/-! ## C4 and C5: subprocess invocation, timeout handling, retry policy -/

theorem tenacityGo_one_trace {Ev α : Type} (retryable : PyExc → Bool) (reraise : Bool)
    (addr : String) (runs : Nat → List Ev × Except PyExc α) (k : Nat) :
    (tenacityGo retryable reraise addr runs 1 k).1 = (runs k).1 := by
  rcases hr : runs k with ⟨tr, r⟩
  cases r with
  | ok a => simp [tenacityGo, hr]
  | error e => cases hn : retryable e <;> simp [tenacityGo, hr, hn]

theorem runOnce_spawn (b : SubprocBehavior) (k : Nat) : countSpawn (runOnce b k).1 = 1 := by
  rcases hb : b.result k with _ | ⟨rc, st⟩
  · simp only [runOnce, hb]
    rfl
  · simp only [runOnce, hb]
    split_ifs <;> rfl

/-- C4: when the analysis subprocess exceeds the one-hour wall-clock ceiling
on every attempt, each attempt kills the process and awaits its teardown
(`kill` followed by `procWait` after each `spawn` in the trace), the retry
wrapper surfaces a `RetryError` wrapping the timeout, and the job is marked
`failed` with error category `timeout` (no critical alert, since `timeout`
is not in the critical set). -/
theorem subprocess_timeout_fails_with_timeout_category (addr : String)
    (h : ∀ c ∈ addr.data, c ∈ hexChars) :
    (run_analysis allTimeout addr).1 =
      [ProcEv.spawn, ProcEv.kill, ProcEv.procWait,
       ProcEv.spawn, ProcEv.kill, ProcEv.procWait] ∧
    (run_analysis allTimeout addr).2 =
      Except.error ⟨"RetryError", retryErrorStr addr "TimeoutError"⟩ ∧
    categorize_error (strOfExc ⟨"RetryError", retryErrorStr addr "TimeoutError"⟩) = "timeout" ∧
    process_job (Except.error ⟨"RetryError", retryErrorStr addr "TimeoutError"⟩) =
      [JobEvent.statusUpdate "processing" none none none, JobEvent.webhook "processing",
       JobEvent.statusUpdate "failed" (some "timeout") none none, JobEvent.webhook "failed"] := by
  have hc : categorize_error (retryErrorStr addr "TimeoutError") = "timeout" :=
    categorize_retryTimeout addr h
  refine ⟨rfl, rfl, hc, ?_⟩
  simp only [process_job, strOfExc]
  rw [hc]
  decide

/-- C4 witness: the timeout scenario at a concrete future address. -/
theorem subprocess_timeout_fails_with_timeout_category_witness :
    (run_analysis allTimeout "0x0").1 =
      [ProcEv.spawn, ProcEv.kill, ProcEv.procWait,
       ProcEv.spawn, ProcEv.kill, ProcEv.procWait] ∧
    (run_analysis allTimeout "0x0").2 =
      Except.error ⟨"RetryError", retryErrorStr "0x0" "TimeoutError"⟩ ∧
    categorize_error (strOfExc ⟨"RetryError", retryErrorStr "0x0" "TimeoutError"⟩) = "timeout" ∧
    process_job (Except.error ⟨"RetryError", retryErrorStr "0x0" "TimeoutError"⟩) =
      [JobEvent.statusUpdate "processing" none none none, JobEvent.webhook "processing",
       JobEvent.statusUpdate "failed" (some "timeout") none none, JobEvent.webhook "failed"] :=
  subprocess_timeout_fails_with_timeout_category "0x0" (by decide)

/-- C5 counterexample: a run whose first subprocess attempt exceeds the
wall-clock ceiling and whose second succeeds is invoked twice — the
re-invocation was triggered by the `TimeoutError`, whose message mentions
neither quota, rate limits, nor the Gemini API, so the subprocess layer
does not re-invoke *only* for quota/rate-limit or remote-API errors. -/
theorem run_analysis_retries_on_wallclock_timeout :
    countSpawn (run_analysis bTimeoutOnce "0x0").1 = 2 ∧
    (runOnce bTimeoutOnce 0).2 =
      Except.error ⟨"TimeoutError", "Analysis exceeded 1 hour time limit"⟩ ∧
    strHas (pyLower "Analysis exceeded 1 hour time limit") "quota" = false ∧
    strHas (pyLower "Analysis exceeded 1 hour time limit") "rate limit" = false ∧
    strHas (pyLower "Analysis exceeded 1 hour time limit") "gemini" = false ∧
    (run_analysis bTimeoutOnce "0x0").2 = Except.ok () := by
  exact ⟨rfl, rfl, rfl, rfl, rfl, rfl⟩

/-- C5 amended: `_run_analysis` makes at most 2 attempts; a second attempt
happens only when the first raised `RuntimeError` (quota/rate-limit or
Gemini-API stderr) or `asyncio.TimeoutError` (wall-clock ceiling); a
`ValueError` (validation failure: non-API script failure or missing output
JSON) is raised unchanged with no re-invocation. -/
theorem run_analysis_retry_policy (b : SubprocBehavior) (addr : String) :
    countSpawn (run_analysis b addr).1 ≤ 2 ∧
    (countSpawn (run_analysis b addr).1 = 2 →
      ∃ e, (runOnce b 0).2 = Except.error e ∧
        (e.cls = "RuntimeError" ∨ e.cls = "TimeoutError")) ∧
    (∀ e, (runOnce b 0).2 = Except.error e → e.cls = "ValueError" →
      run_analysis b addr = ((runOnce b 0).1, Except.error e)) := by
  have hs0 := runOnce_spawn b 0
  have hs1 := runOnce_spawn b 1
  rcases h0 : runOnce b 0 with ⟨tr0, r0⟩
  rw [h0] at hs0
  simp only [countSpawn] at hs0 hs1
  cases r0 with
  | ok a =>
    have hval : run_analysis b addr = (tr0, Except.ok a) := by
      simp [run_analysis, tenacityGo, h0]
    refine ⟨?_, ?_, ?_⟩
    · rw [hval]
      simp only [countSpawn]
      omega
    · intro h2
      rw [hval] at h2
      simp only [countSpawn] at h2
      omega
    · intro e he
      simp at he
  | error e0 =>
    cases hr : runRetryable e0 with
    | false =>
      have hval : run_analysis b addr = (tr0, Except.error e0) := by
        simp [run_analysis, tenacityGo, h0, hr]
      refine ⟨?_, ?_, ?_⟩
      · rw [hval]
        simp only [countSpawn]
        omega
      · intro h2
        rw [hval] at h2
        simp only [countSpawn] at h2
        omega
      · intro e he hcls
        simp at he
        subst he
        rw [hval]
    | true =>
      have hval1 : (run_analysis b addr).1 =
          tr0 ++ (tenacityGo runRetryable false addr (runOnce b) 1 1).1 := by
        simp [run_analysis, tenacityGo, h0, hr]
      have htr : (run_analysis b addr).1 = tr0 ++ (runOnce b 1).1 := by
        rw [hval1, tenacityGo_one_trace]
      have hcount : countSpawn (run_analysis b addr).1 = 2 := by
        rw [htr]
        simp only [countSpawn, List.count_append]
        omega
      refine ⟨by omega, ?_, ?_⟩
      · intro _
        refine ⟨e0, rfl, ?_⟩
        simp only [runRetryable, Bool.or_eq_true, beq_iff_eq] at hr
        exact hr
      · intro e he hcls
        simp at he
        subst he
        simp only [runRetryable, Bool.or_eq_true, beq_iff_eq] at hr
        rcases hr with h | h <;> rw [hcls] at h <;> exact absurd h (by decide)

/-- C5 witness: the amended retry policy applied at concrete behaviours —
the timed-out first attempt justifying the second invocation, and a
validation failure surfaced unchanged after a single invocation. -/
theorem run_analysis_retry_policy_witness :
    (∃ e, (runOnce bTimeoutOnce 0).2 = Except.error e ∧
      (e.cls = "RuntimeError" ∨ e.cls = "TimeoutError")) ∧
    run_analysis bValErr "0x0" =
      ((runOnce bValErr 0).1,
        Except.error ⟨"ValueError", "Analysis script failed: boom"⟩) :=
  ⟨(run_analysis_retry_policy bTimeoutOnce "0x0").2.1 rfl,
    (run_analysis_retry_policy bValErr "0x0").2.2
      ⟨"ValueError", "Analysis script failed: boom"⟩ rfl rfl⟩

/-! ## C6: the oversized-slice compression substitution -/

/-- C6: evaluating the size-check/compress step of `analyse_segment` on the
first segment of a 25-minute video whose slice measures 150 MB.  The
uncompressed slice `video.seg0_600.mp4` already exists (created by `split`),
so `slice_with_ffmpeg(..., compress=True)` early-returns that very file
(the compressed output shares its name): the "substituted" path is the
original stream-copied slice, no re-encoded file is created, and the
filesystem is unchanged — the upload proceeds with the oversized
uncompressed slice, contrary to the documented substitution. -/
theorem compress_branch_returns_uncompressed_slice :
    100 < size150 segOne.path ∧
    ((split ([] : FS) vid 1500 600).2)[0]? = some segOne ∧
    ((split ([] : FS) vid 1500 600).1).lookup segOne.path = some SliceKind.copied ∧
    compressionPhase size150 (split ([] : FS) vid 1500 600).1 segOne true =
      ((split ([] : FS) vid 1500 600).1, segOne) ∧
    ((split ([] : FS) vid 1500 600).1).lookup (withSuffix segOne.path ["compressed", "mp4"]) =
      none := by
  exact ⟨by decide, by decide, by decide, by decide, by decide⟩

/-! ## C7: quota categorization and critical alerts -/

/-- C7: when a job fails with an error whose message contains `"quota"`, the
recorded category is `quota_exceeded` and `_process_job` emits the failed
status update, its webhook, and additionally a critical alert; moreover, for
any failing error, a critical alert appears among the job's events exactly
when the categorized error is in the critical set
`{quota_exceeded, api_key_invalid, storage_error}`. -/
theorem quota_category_and_critical_alert :
    (∀ e : PyExc, strHas (strOfExc e) "quota" = true →
      categorize_error (strOfExc e) = "quota_exceeded" ∧
      process_job (Except.error e) =
        [JobEvent.statusUpdate "processing" none none none, JobEvent.webhook "processing",
         JobEvent.statusUpdate "failed" (some "quota_exceeded") none none,
         JobEvent.webhook "failed", JobEvent.criticalAlert "quota_exceeded"]) ∧
    (∀ e : PyExc,
      (∃ c, JobEvent.criticalAlert c ∈ process_job (Except.error e)) ↔
        categorize_error (strOfExc e) ∈ criticalCategories) := by
  constructor
  · intro e he
    have hc : categorize_error (strOfExc e) = "quota_exceeded" := categorize_quota _ he
    refine ⟨hc, ?_⟩
    simp only [process_job]
    rw [hc]
    decide
  · intro e
    cases hb : criticalCategories.contains (categorize_error (strOfExc e)) with
    | true =>
      have hmem : categorize_error (strOfExc e) ∈ criticalCategories := by
        simpa using hb
      constructor
      · intro _
        exact hmem
      · intro _
        exact ⟨categorize_error (strOfExc e), by simp [process_job, hb, hmem]⟩
    | false =>
      have hmem : categorize_error (strOfExc e) ∉ criticalCategories := by
        simpa using hb
      constructor
      · rintro ⟨c, hc⟩
        simp [process_job, hb] at hc
        exact absurd hc.1 hmem
      · intro hc
        exact absurd hc hmem

/-- C7 witness: a concrete quota error. -/
theorem quota_category_and_critical_alert_witness :
    categorize_error (strOfExc ⟨"Exception", "429 quota exceeded for model"⟩) =
      "quota_exceeded" ∧
    process_job (Except.error ⟨"Exception", "429 quota exceeded for model"⟩) =
      [JobEvent.statusUpdate "processing" none none none, JobEvent.webhook "processing",
       JobEvent.statusUpdate "failed" (some "quota_exceeded") none none,
       JobEvent.webhook "failed", JobEvent.criticalAlert "quota_exceeded"] :=
  quota_category_and_critical_alert.1 ⟨"Exception", "429 quota exceeded for model"⟩ (by decide)

/-! ## C8: the concurrency cap -/

theorem semaphore_permit_sum (n : Nat) :
    ∀ s, Reach (initState n) s → s.avail + s.running = max_concurrent := by
  intro s h
  induction h with
  | refl => rfl
  | step hr hs ih =>
    cases hs with
    | acquire h1 h2 =>
      simp only []
      omega
    | release h1 =>
      simp only []
      omega

/-- C8: in any schedule of `VideoAnalyser.run` — however many segments the
video splits into — the number of segment analyses simultaneously holding
the semaphore (in-flight upload-through-generate) never exceeds
`max_concurrent = 3`. -/
theorem concurrency_cap_invariant (fs : FS) (v : FsPath) (D L : Nat) (s : RunState)
    (h : Reach (initState ((split fs v D L).2).length) s) : s.running ≤ max_concurrent := by
  have := semaphore_permit_sum ((split fs v D L).2).length s h
  omega

/-- C8 witness: the cap holds at the initial state of a concrete run. -/
theorem concurrency_cap_invariant_witness :
    (initState ((split ([] : FS) vid 1500 600).2).length).running ≤ max_concurrent :=
  concurrency_cap_invariant ([] : FS) vid 1500 600 _ Reach.refl

/-! ## C9: job-claim errors are swallowed -/

/-- C9: `_get_next_job` never propagates an exception — any error from the
claim RPC yields `None`, so the polling loop takes the same `sleep` action
as for an empty queue; the two cases are indistinguishable to the loop. -/
theorem get_next_job_never_raises (e : PyExc) :
    getNextJob (Except.error e) = none ∧
    runLoopStep (Except.error e) = LoopAction.sleep ∧
    runLoopStep (Except.error e) = runLoopStep (Except.ok ([] : List Job)) :=
  ⟨rfl, rfl, rfl⟩

/-- C9 witness: the claim-error swallow at a concrete backlog failure. -/
theorem get_next_job_never_raises_witness :
    getNextJob (Except.error ⟨"APIError", "connection reset"⟩) = none ∧
    runLoopStep (Except.error ⟨"APIError", "connection reset"⟩) = LoopAction.sleep ∧
    runLoopStep (Except.error ⟨"APIError", "connection reset"⟩) =
      runLoopStep (Except.ok ([] : List Job)) :=
  get_next_job_never_raises ⟨"APIError", "connection reset"⟩

/-! ## C10: PDF failures never fail the job -/

/-- C10: if the body of `_generate_pdf_report` raises, the helper returns
`None`; `_upload_results` then records only the JSON artifact, and the job
still transitions to `completed` with a JSON URL and no PDF URL. -/
theorem pdf_failure_keeps_job_completed (e : PyExc) (env : UploadEnv)
    (user_id job_id : String)
    (h1 : env.jsonFilePresent = true) (h2 : env.jsonValid = true)
    (h3 : env.jsonUpload = Except.ok ()) (h4 : env.pdfGen = Except.error e) :
    generate_pdf_report env.pdfGen = none ∧
    upload_results env user_id job_id =
      Except.ok ⟨some (jsonUrlStr user_id job_id), none⟩ ∧
    process_job (Except.ok ⟨some (jsonUrlStr user_id job_id), none⟩) =
      [JobEvent.statusUpdate "processing" none none none, JobEvent.webhook "processing",
       JobEvent.statusUpdate "completed" none (some (jsonUrlStr user_id job_id)) none,
       JobEvent.webhook "completed"] := by
  refine ⟨by rw [h4]; rfl, ?_, rfl⟩
  simp [upload_results, h1, h2, h3, h4, generate_pdf_report]

/-- C10 witness: a concrete failing PDF generation. -/
theorem pdf_failure_keeps_job_completed_witness :
    generate_pdf_report envPdfFail.pdfGen = none ∧
    upload_results envPdfFail "u1" "j1" =
      Except.ok ⟨some (jsonUrlStr "u1" "j1"), none⟩ ∧
    process_job (Except.ok ⟨some (jsonUrlStr "u1" "j1"), none⟩) =
      [JobEvent.statusUpdate "processing" none none none, JobEvent.webhook "processing",
       JobEvent.statusUpdate "completed" none (some (jsonUrlStr "u1" "j1")) none,
       JobEvent.webhook "completed"] :=
  pdf_failure_keeps_job_completed ⟨"Exception", "pdf render boom"⟩ envPdfFail
    "u1" "j1" rfl rfl rfl rfl

end ScreenAnalysis
